import Mathlib

/-!
Shallow embedding of wagtail-localize-intentional-blanks.

The repository overlays a "do not translate" override on a translation store:
a sentinel marker (optionally carrying an encoded backup of a pre-existing
manual translation) is written into the single `data` field of a
StringTranslation row.  This file embeds the marker codec, the store
operations of `utils.py`, the AJAX views of `views.py`, and the
(spec-modelled) segment resolver, and proves the frozen claims about them.

Python `str` values are modelled as `List Char`; Django rows keyed by the
(translation_of, locale, context) triple are modelled as a list of rows, with
at most one row per key in well-formed stores (the natural-key invariant of
the data model); Python exceptions are modelled with `Except`.
-/

namespace IntentionalBlanks

/-- Text values (Python strings) are modelled as lists of characters. -/
abbrev Str := List Char

/-- Python `s.startswith(pre)`. -/
def strStartsWith (s pre : Str) : Bool :=
  match pre, s with
  | [], _ => true
  | _ :: _, [] => false
  | p :: ps, c :: cs => p == c && strStartsWith cs ps

/-- Locate the first occurrence of `sep` in `s`, returning the text before it
and the text after it (Python `s.split(sep, 1)` when `sep` occurs in `s`);
`none` when `sep` does not occur (Python `sep in s` is false). -/
def splitFirst (sep s : Str) : Option (Str × Str) :=
  match s with
  | [] => if strStartsWith [] sep then some ([], []) else none
  | c :: cs =>
    if strStartsWith (c :: cs) sep then some ([], (c :: cs).drop sep.length)
    else
      match splitFirst sep cs with
      | some (before, after) => some (c :: before, after)
      | none => none

/-- Python `s.lower()` (character-wise, sufficient for the ASCII toggle values). -/
def pyLower (s : Str) : Str := s.map Char.toLower

/-- Failures surfaced by the embedded operations.  `configError` is the
ValueError raised by `validate_configuration` in `utils.py`. -/
inductive Err where
  | configError
deriving DecidableEq

/-- The settings surface of the package: the marker token, the backup
separator, the feature-enable flag and the optional required permission.
A setting is `none` when unset (Python `get_setting` returning `None`). -/
structure Config where
  marker : Option Str
  backupSeparator : Option Str
  enabled : Bool
  requiredPermission : Option Str
deriving DecidableEq

/-- utils.get_marker: read the configured marker value. -/
def get_marker (c : Config) : Option Str := c.marker

/-- utils.get_backup_separator: read the configured backup separator value. -/
def get_backup_separator (c : Config) : Option Str := c.backupSeparator

/-- utils.validate_configuration: raise ValueError when the marker or the
backup separator is None or the empty string; on success the two validated
values are the ones every caller then reads back. -/
def validate_configuration (c : Config) : Except Err (Str × Str) :=
  match get_marker c with
  | none => .error .configError
  | some marker =>
    if marker = [] then .error .configError
    else
      match get_backup_separator c with
      | none => .error .configError
      | some backup_separator =>
        if backup_separator = [] then .error .configError
        else .ok (marker, backup_separator)

/-- A configuration is valid when both the marker and the backup separator
are set and non-empty. -/
def configValid (c : Config) : Bool :=
  match c.marker, c.backupSeparator with
  | some m, some s => !decide (m = []) && !decide (s = [])
  | _, _ => false

/-- Natural key of a StringTranslation row: the
(translation_of string id, target locale, context) triple. -/
structure Key where
  stringId : Nat
  locale : Nat
  context : Nat
deriving DecidableEq

/-- wagtail_localize StringTranslation.TRANSLATION_TYPE_MANUAL. -/
def TRANSLATION_TYPE_MANUAL : Nat := 1

/-- One StringTranslation row; `data` is the single shared text field that
holds either a manual translation or the encoded marker state. -/
structure Row where
  key : Key
  data : Str
  translationType : Nat
  lastTranslatedBy : Option Nat
deriving DecidableEq

/-- The StringTranslation table (at most one row per key in well-formed
stores, per the unique-together natural key). -/
abbrev Store := List Row

/-- Django StringTranslation.objects.get(translation_of=, locale=, context=). -/
def getRow (st : Store) (k : Key) : Option Row :=
  st.find? (fun r => decide (r.key = k))

/-- Update every row of the given key in place, leaving other rows untouched. -/
def updateRows (st : Store) (k : Key) (f : Row → Row) : Store :=
  st.map (fun r => if r.key = k then f r else r)

/-- Django update_or_create keyed on the triple, with defaults
data / translation_type / last_translated_by (utils.py lines 87-96). -/
def update_or_create (st : Store) (k : Key) (d : Str) (user : Option Nat) : Store × Row :=
  match getRow st k with
  | some _ =>
    (updateRows st k (fun r =>
       { r with data := d, translationType := TRANSLATION_TYPE_MANUAL, lastTranslatedBy := user }),
     { key := k, data := d, translationType := TRANSLATION_TYPE_MANUAL, lastTranslatedBy := user })
  | none =>
    (st ++ [{ key := k, data := d, translationType := TRANSLATION_TYPE_MANUAL,
              lastTranslatedBy := user }],
     { key := k, data := d, translationType := TRANSLATION_TYPE_MANUAL, lastTranslatedBy := user })

/-- Django delete() of the row with the given key. -/
def deleteKey (st : Store) (k : Key) : Store :=
  st.filter (fun r => !decide (r.key = k))

/-- Django save() after assigning only the `data` attribute of the row with
the given key. -/
def saveData (st : Store) (k : Key) (d : Str) : Store :=
  updateRows st k (fun r => { r with data := d })

/-- The marker encoding with a backup payload
(utils.py line 81: marker + backup_separator + backup). -/
def encode_marker_with_backup (marker backup_separator backup : Str) : Str :=
  marker ++ backup_separator ++ backup

/-- The marked test used throughout utils.py and views.py:
data == marker or data.startswith(marker + backup_separator). -/
def isMarkerPrefixed (marker backup_separator d : Str) : Bool :=
  decide (d = marker) || strStartsWith d (marker ++ backup_separator)

/-- The backup decoding of utils.py line 150:
data.split(backup_separator, 1)[1] if backup_separator in data else None. -/
def decode_backup (backup_separator d : Str) : Option Str :=
  (splitFirst backup_separator d).map (fun p => p.2)

/-- utils.mark_segment_do_not_translate: validate the configuration, back up
any existing real translation inside the marker encoding (leaving the bare
marker when the existing data is the marker or already starts with
marker + backup_separator, or when no row exists), then write the value
through update_or_create. -/
def mark_segment_do_not_translate (c : Config) (st : Store) (k : Key) (user : Option Nat) :
    Except Err (Store × Row) :=
  match validate_configuration c with
  | .error e => .error e
  | .ok (marker, backup_separator) =>
    let marker_with_backup :=
      match getRow st k with
      | some existing =>
        if !decide (existing.data = marker) &&
           !strStartsWith existing.data (marker ++ backup_separator) then
          encode_marker_with_backup marker backup_separator existing.data
        else marker
      | none => marker
    .ok (update_or_create st k marker_with_backup user)

/-- utils.unmark_segment_do_not_translate: find the marked row (first by
data == marker, then by data.startswith(marker + backup_separator)); restore
the decoded backup in place when it is truthy, otherwise delete the row;
return the number of rows affected (0 when nothing matched). -/
def unmark_segment_do_not_translate (c : Config) (st : Store) (k : Key) :
    Except Err (Store × Nat) :=
  match validate_configuration c with
  | .error e => .error e
  | .ok (marker, backup_separator) =>
    match st.find? (fun r => decide (r.key = k) && decide (r.data = marker)) with
    | some _ =>
      .ok (deleteKey st k, 1)
    | none =>
      match st.find? (fun r => decide (r.key = k) &&
                               strStartsWith r.data (marker ++ backup_separator)) with
      | some marked_translation =>
        let backup_data := decode_backup backup_separator marked_translation.data
        match backup_data with
        | some b =>
          if !b.isEmpty then .ok (saveData st k b, 1)
          else .ok (deleteKey st k, 1)
        | none => .ok (deleteKey st k, 1)
      | none => .ok (st, 0)

/-- utils.is_do_not_translate on the row's data field. -/
def is_do_not_translate (c : Config) (d : Str) : Except Err Bool :=
  match validate_configuration c with
  | .error e => .error e
  | .ok (marker, backup_separator) => .ok (isMarkerPrefixed marker backup_separator d)

/-- The counts returned by utils.get_source_fallback_stats. -/
structure Stats where
  total : Nat
  do_not_translate : Nat
  manually_translated : Nat
deriving DecidableEq

/-- utils.get_source_fallback_stats: over the translations of the job's
string ids in the target locale, count the rows matching
Q(data=marker) | Q(data__startswith=marker + backup_separator) and the rows
excluded by that same filter. -/
def get_source_fallback_stats (c : Config) (st : Store) (stringIds : List Nat)
    (targetLocale : Nat) : Except Err Stats :=
  match validate_configuration c with
  | .error e => .error e
  | .ok (marker, backup_separator) =>
    let all_translations := st.filter (fun r =>
      decide (r.key.locale = targetLocale) && stringIds.contains r.key.stringId)
    let dnt := all_translations.filter (fun r =>
      isMarkerPrefixed marker backup_separator r.data)
    let manual := all_translations.filter (fun r =>
      !isMarkerPrefixed marker backup_separator r.data)
    .ok { total := all_translations.length, do_not_translate := dnt.length,
          manually_translated := manual.length }

/-- utils.bulk_mark_segments: mark each segment in turn, incrementing a
counter; an exception from one mark aborts the loop, leaving the side
effects of the earlier marks in place, and propagates to the caller (the
counter is only returned when every mark succeeds). -/
def bulk_mark_segments (c : Config) (st : Store) (keys : List Key) (user : Option Nat) :
    Store × Except Err Nat :=
  match keys with
  | [] => (st, .ok 0)
  | k :: rest =>
    match mark_segment_do_not_translate c st k user with
    | .error e => (st, .error e)
    | .ok (st', _) =>
      match bulk_mark_segments c st' rest user with
      | (st'', .ok n) => (st'', .ok (n + 1))
      | (st'', .error e) => (st'', .error e)

/-- views.check_permission: when no permission is configured every user is
authorized, otherwise the user's has_perm result decides. -/
def check_permission (c : Config) (hasPerm : Bool) : Bool :=
  match c.requiredPermission with
  | none => true
  | some _ => hasPerm

/-- JSON response of views.mark_segment_do_not_translate_view; absent JSON
fields of the error responses are `none`. -/
structure MarkViewResponse where
  status : Nat
  success : Bool
  source_value : Option Str
  translated_value : Option Str
  do_not_translate : Option Bool
deriving DecidableEq

/-- An error JsonResponse carrying only success=False and a message. -/
def errorResponse (code : Nat) : MarkViewResponse :=
  { status := code, success := false, source_value := none, translated_value := none,
    do_not_translate := none }

/-- views.mark_segment_do_not_translate_view.  The Django object lookups are
abstracted to existence flags (a missing Translation or StringSegment is a
404; a missing String escapes to the generic handler, a 400).  The
do_not_translate POST parameter is lowercased and must then be the string
true or false, otherwise a 400 is returned before any state change; on
true the segment is marked, on false it is unmarked and any restored real
translation is echoed back. -/
def mark_segment_do_not_translate_view (c : Config) (st : Store) (hasPerm : Bool)
    (translationExists stringExists segmentExists : Bool) (k : Key) (sourceText : Str)
    (user : Option Nat) (param : Option Str) : Store × MarkViewResponse :=
  if !check_permission c hasPerm then (st, errorResponse 403)
  else if !translationExists then (st, errorResponse 404)
  else if !stringExists then (st, errorResponse 400)
  else if !segmentExists then (st, errorResponse 404)
  else
    let do_not_translate_param := pyLower (param.getD [])
    if !(decide (do_not_translate_param = "true".toList) ||
         decide (do_not_translate_param = "false".toList)) then
      (st, errorResponse 400)
    else
      let do_not_translate := decide (do_not_translate_param = "true".toList)
      if do_not_translate then
        match mark_segment_do_not_translate c st k user with
        | .error _ => (st, errorResponse 400)
        | .ok (st', _) =>
          (st', { status := 200, success := true, source_value := some sourceText,
                  translated_value := none, do_not_translate := some true })
      else
        match unmark_segment_do_not_translate c st k with
        | .error _ => (st, errorResponse 400)
        | .ok (st', _) =>
          match getRow st' k with
          | some existing_translation =>
            match validate_configuration c with
            | .error _ => (st', errorResponse 400)
            | .ok (marker, backup_separator) =>
              let translated_value :=
                if !decide (existing_translation.data = marker) &&
                   !strStartsWith existing_translation.data (marker ++ backup_separator) then
                  some existing_translation.data
                else none
              (st', { status := 200, success := true, source_value := some sourceText,
                      translated_value := translated_value, do_not_translate := some false })
          | none =>
            (st', { status := 200, success := true, source_value := some sourceText,
                    translated_value := none, do_not_translate := some false })

/-- JSON response of views.get_segment_status; absent fields are `none`. -/
structure StatusResponse where
  status : Nat
  success : Bool
  do_not_translate : Option Bool
  source_text : Option Str
  translated_text : Option Str
deriving DecidableEq

/-- An error JsonResponse of the status view. -/
def statusError (code : Nat) : StatusResponse :=
  { status := code, success := false, do_not_translate := none, source_text := none,
    translated_text := none }

/-- views.get_segment_status: look up the StringTranslation by
(translation_of, locale) only — no context filter, so several rows across
contexts raise MultipleObjectsReturned into the generic 400 handler; when
exactly one row exists its is_do_not_translate result decides whether the
data field is surfaced as translated_text (marked rows report null). -/
def get_segment_status (c : Config) (st : Store) (hasPerm : Bool)
    (translationExists stringExists segmentExists : Bool)
    (stringId targetLocale : Nat) (sourceText : Str) : StatusResponse :=
  if !check_permission c hasPerm then statusError 403
  else if !translationExists then statusError 404
  else if !stringExists then statusError 400
  else if !segmentExists then statusError 404
  else
    match st.filter (fun r =>
        decide (r.key.stringId = stringId) && decide (r.key.locale = targetLocale)) with
    | [] =>
      { status := 200, success := true, do_not_translate := some false,
        source_text := some sourceText, translated_text := none }
    | [string_translation] =>
      match is_do_not_translate c string_translation.data with
      | .error _ => statusError 400
      | .ok do_not_translate =>
        { status := 200, success := true, do_not_translate := some do_not_translate,
          source_text := some sourceText,
          translated_text :=
            if do_not_translate then none else some string_translation.data }
    | _ :: _ :: _ => statusError 400

/-- A translatable segment: string id, context path, order index and the
source-locale text of its String. -/
structure Segment where
  stringId : Nat
  context : Nat
  order : Nat
  sourceText : Str
deriving DecidableEq

/-- Modelled from the spec: the segment resolver (the repository's patch of
TranslationSource._get_segments_for_translation is not under src/, only its
tests in tests/test_patch.py are).  Spec section 4.3: with the feature flag
enabled, a segment with no override row falls back to its source text or the
empty string per the fallback flag, a row that is not marker-prefixed yields
its data verbatim, and a marker-prefixed row (with or without backup) yields
the segment's own source text; with the flag disabled rows pass through
unmodified. -/
def resolve_segment (c : Config) (st : Store) (targetLocale : Nat) (fallback : Bool)
    (seg : Segment) : Str :=
  let k : Key := { stringId := seg.stringId, locale := targetLocale, context := seg.context }
  if c.enabled then
    match getRow st k with
    | none => if fallback then seg.sourceText else []
    | some r =>
      match c.marker, c.backupSeparator with
      | some marker, some backup_separator =>
        if isMarkerPrefixed marker backup_separator r.data then seg.sourceText else r.data
      | _, _ => r.data
  else
    match getRow st k with
    | none => if fallback then seg.sourceText else []
    | some r => r.data

/-- The marker token of the test settings
(WAGTAIL_LOCALIZE_INTENTIONAL_BLANKS_MARKER in src/test_settings.py). -/
def DO_NOT_TRANSLATE_MARKER : Str := "__DO_NOT_TRANSLATE__".toList

/-- The backup separator of the utils.py docstring example
(__DO_NOT_TRANSLATE__|backup|original_value). -/
def BACKUP_SEPARATOR : Str := "|backup|".toList

/-- The configuration of the test settings: defaults on, no permission. -/
def defaultConfig : Config :=
  { marker := some DO_NOT_TRANSLATE_MARKER, backupSeparator := some BACKUP_SEPARATOR,
    enabled := true, requiredPermission := none }

/-- Composition of a mark followed by an unmark on the same key, propagating
either operation's failure, returning the final store. -/
def mark_then_unmark (c : Config) (st : Store) (k : Key) (user : Option Nat) :
    Except Err Store :=
  match mark_segment_do_not_translate c st k user with
  | .error e => .error e
  | .ok (st', _) =>
    match unmark_segment_do_not_translate c st' k with
    | .error e => .error e
    | .ok (st'', _) => .ok st''

/-- A sample key used by the concrete witnesses. -/
def k0 : Key := { stringId := 1, locale := 1, context := 1 }

/-- An invalid configuration (marker unset) used by the concrete witnesses. -/
def badConfig : Config :=
  { marker := none, backupSeparator := some BACKUP_SEPARATOR, enabled := true,
    requiredPermission := none }

/-- A row holding a manual translation, used by the concrete witnesses. -/
def rowBonjour : Row :=
  { key := k0, data := "Bonjour".toList, translationType := TRANSLATION_TYPE_MANUAL,
    lastTranslatedBy := none }

/-- A row holding an empty manual translation, used by the concrete witnesses. -/
def rowEmpty : Row :=
  { key := k0, data := [], translationType := TRANSLATION_TYPE_MANUAL,
    lastTranslatedBy := none }

/-- A row holding the bare marker, used by the concrete witnesses. -/
def rowMarked : Row :=
  { key := k0, data := DO_NOT_TRANSLATE_MARKER, translationType := TRANSLATION_TYPE_MANUAL,
    lastTranslatedBy := none }

/-- A row holding the marker with an encoded backup, used by the witnesses. -/
def rowMarkedBackup : Row :=
  { key := k0,
    data := encode_marker_with_backup DO_NOT_TRANSLATE_MARKER BACKUP_SEPARATOR "Bonjour".toList,
    translationType := TRANSLATION_TYPE_MANUAL, lastTranslatedBy := none }

/-- A sample segment whose string id and context match k0. -/
def seg0 : Segment :=
  { stringId := 1, context := 1, order := 0, sourceText := "English Source Text".toList }

/-! Helper lemmas about the string primitives. -/

theorem strStartsWith_iff (pre s : Str) :
    strStartsWith s pre = true ↔ ∃ rest, s = pre ++ rest := by
  induction pre generalizing s with
  | nil =>
    simp [strStartsWith]
  | cons p ps ih =>
    cases s with
    | nil =>
      simp [strStartsWith]
    | cons c cs =>
      simp only [strStartsWith, Bool.and_eq_true, beq_iff_eq, ih, List.cons_append]
      constructor
      · rintro ⟨rfl, rest, rfl⟩
        exact ⟨rest, rfl⟩
      · rintro ⟨rest, heq⟩
        injection heq with h1 h2
        exact ⟨h1.symm, rest, h2⟩

theorem strStartsWith_of_append (pre rest : Str) : strStartsWith (pre ++ rest) pre = true :=
  (strStartsWith_iff pre (pre ++ rest)).mpr ⟨rest, rfl⟩

theorem strStartsWith_append_false (x y pre : Str) (hlen : pre.length ≤ x.length)
    (h : strStartsWith x pre = false) : strStartsWith (x ++ y) pre = false := by
  by_contra hcon
  rw [Bool.not_eq_false, strStartsWith_iff] at hcon
  obtain ⟨rest, hrest⟩ := hcon
  have hx : x = pre ++ rest.take (x.length - pre.length) := by
    have h1 : x = (x ++ y).take x.length := (List.take_left x y).symm
    rw [hrest, List.take_append_eq_append_take, List.take_of_length_le hlen] at h1
    exact h1
  have htrue : strStartsWith x pre = true := (strStartsWith_iff pre x).mpr ⟨_, hx⟩
  rw [htrue] at h
  exact absurd h (by simp)

theorem splitFirst_clean (sep m t : Str) (hs : sep ≠ [])
    (hclean : ∀ i, i < m.length → strStartsWith ((m ++ sep).drop i) sep = false) :
    splitFirst sep (m ++ (sep ++ t)) = some (m, t) := by
  induction m with
  | nil =>
    cases sep with
    | nil => exact absurd rfl hs
    | cons c cs =>
      have hpre : strStartsWith (c :: (cs ++ t)) (c :: cs) = true := by
        have := strStartsWith_of_append (c :: cs) t
        rwa [List.cons_append] at this
      have hdrop : (c :: (cs ++ t)).drop (c :: cs).length = t := by
        have := List.drop_left (c :: cs) t
        rwa [List.cons_append] at this
      simp only [List.nil_append, List.cons_append, splitFirst, List.append_eq]
      rw [if_pos hpre, hdrop]
  | cons a m' ih =>
    have h0 : strStartsWith (a :: (m' ++ sep)) sep = false := by
      have := hclean 0 (by simp)
      simpa using this
    have hfalse : strStartsWith (a :: (m' ++ (sep ++ t))) sep = false := by
      have hlen : sep.length ≤ (a :: (m' ++ sep)).length := by
        simp [List.length_append]
        omega
      have := strStartsWith_append_false (a :: (m' ++ sep)) t sep hlen h0
      simpa using this
    have hrec : splitFirst sep (m' ++ (sep ++ t)) = some (m', t) := by
      apply ih
      intro i hi
      have := hclean (i + 1) (by simpa using Nat.succ_lt_succ hi)
      simpa using this
    simp only [List.cons_append, splitFirst, List.append_eq]
    rw [if_neg (by simp [hfalse]), hrec]

/-! Helper lemmas about list search and filtering. -/

theorem find?_append_first_none {α : Type} (p : α → Bool) (l₁ l₂ : List α)
    (h : l₁.find? p = none) : (l₁ ++ l₂).find? p = l₂.find? p := by
  induction l₁ with
  | nil => rfl
  | cons a l ih =>
    cases hpa : p a with
    | true =>
      rw [List.find?_cons_of_pos _ hpa] at h
      exact absurd h (by simp)
    | false =>
      rw [List.find?_cons_of_neg _ (by simp [hpa])] at h
      rw [List.cons_append, List.find?_cons_of_neg _ (by simp [hpa])]
      exact ih h

theorem filter_all_keep {α : Type} (p : α → Bool) (l : List α)
    (h : ∀ a ∈ l, p a = true) : l.filter p = l := by
  induction l with
  | nil => rfl
  | cons a l ih =>
    rw [List.filter_cons, if_pos (by simp [h a (by simp)])]
    rw [ih (fun b hb => h b (by simp [hb]))]

theorem length_filter_partition {α : Type} (p : α → Bool) (l : List α) :
    (l.filter p).length + (l.filter (fun a => !p a)).length = l.length := by
  induction l with
  | nil => rfl
  | cons a l ih =>
    cases hpa : p a <;> simp [List.filter_cons, hpa] <;> omega

/-! Helper lemmas about the store operations. -/

theorem getRow_updateRows (st : Store) (k : Key) (f : Row → Row)
    (hk : ∀ r, (f r).key = r.key) :
    getRow (updateRows st k f) k
      = (getRow st k).map (fun r => if r.key = k then f r else r) := by
  induction st with
  | nil => rfl
  | cons x xs ih =>
    by_cases hx : x.key = k
    · have hgx : (if x.key = k then f x else x).key = k := by
        rw [if_pos hx, hk]; exact hx
      rw [updateRows, List.map_cons, getRow,
        List.find?_cons_of_pos _ (by simp [hgx]),
        getRow, List.find?_cons_of_pos _ (by simp [hx])]
      rfl
    · have hgx : (if x.key = k then f x else x) = x := if_neg hx
      rw [updateRows, List.map_cons, hgx, getRow,
        List.find?_cons_of_neg _ (by simp [hx]),
        getRow, List.find?_cons_of_neg _ (by simp [hx])]
      exact ih

theorem find?_data_updateRows (st : Store) (k : Key) (f : Row → Row) (d : Str)
    (hk : ∀ r, (f r).key = r.key) (hd : ∀ r, (f r).data = d) (q : Str → Bool) :
    (updateRows st k f).find? (fun r => decide (r.key = k) && q r.data)
      = if q d = true then
          (st.find? (fun r => decide (r.key = k))).map
            (fun r => if r.key = k then f r else r)
        else none := by
  induction st with
  | nil => cases q d <;> simp [updateRows]
  | cons x xs ih =>
    by_cases hx : x.key = k
    · have hgx : (if x.key = k then f x else x) = f x := if_pos hx
      have hpred : (decide ((f x).key = k) && q (f x).data) = q d := by
        rw [hk, hd]
        simp [hx]
      cases hqd : q d with
      | true =>
        rw [updateRows, List.map_cons, hgx,
          List.find?_cons_of_pos _ (by rw [hpred]; exact hqd),
          if_pos rfl, List.find?_cons_of_pos _ (by simp [hx])]
        simp [hx]
      | false =>
        rw [updateRows, List.map_cons, hgx,
          List.find?_cons_of_neg _ (by rw [hpred, hqd]; simp),
          if_neg (by simp [hqd])]
        have := ih
        rw [if_neg (by simp [hqd])] at this
        exact this
    · have hgx : (if x.key = k then f x else x) = x := if_neg hx
      rw [updateRows, List.map_cons, hgx,
        List.find?_cons_of_neg _ (by simp [hx])]
      cases hqd : q d with
      | true =>
        rw [if_pos rfl, List.find?_cons_of_neg _ (by simp [hx])]
        have := ih
        rw [if_pos hqd] at this
        exact this
      | false =>
        rw [if_neg (by simp [hqd])]
        have := ih
        rw [if_neg (by simp [hqd])] at this
        exact this

theorem getRow_deleteKey (st : Store) (k : Key) : getRow (deleteKey st k) k = none := by
  induction st with
  | nil => rfl
  | cons x xs ih =>
    by_cases hx : x.key = k
    · rw [deleteKey, List.filter_cons, if_neg (by simp [hx])]
      exact ih
    · rw [deleteKey, List.filter_cons, if_pos (by simp [hx]),
        getRow, List.find?_cons_of_neg _ (by simp [hx])]
      exact ih

/-! Helper lemmas about the configuration validation. -/

theorem validate_configuration_ok (c : Config) (m s : Str)
    (hm : c.marker = some m) (hs : c.backupSeparator = some s)
    (hm0 : m ≠ []) (hs0 : s ≠ []) :
    validate_configuration c = .ok (m, s) := by
  simp [validate_configuration, get_marker, get_backup_separator, hm, hs, hm0, hs0]

theorem validate_configuration_error (c : Config) (h : configValid c = false) :
    validate_configuration c = .error .configError := by
  rcases c with ⟨mk, sp, en, rp⟩
  cases mk with
  | none => rfl
  | some m =>
    cases sp with
    | none =>
      by_cases hm : m = [] <;>
        simp [validate_configuration, get_marker, get_backup_separator, hm]
    | some s =>
      by_cases hm : m = []
      · simp [validate_configuration, get_marker, get_backup_separator, hm]
      · by_cases hsx : s = []
        · simp [validate_configuration, get_marker, get_backup_separator, hm, hsx]
        · exact absurd h (by simp [configValid, hm, hsx])

theorem configValid_elim (c : Config) (h : configValid c = true) :
    ∃ m s, c.marker = some m ∧ c.backupSeparator = some s ∧ m ≠ [] ∧ s ≠ [] ∧
      validate_configuration c = .ok (m, s) := by
  rcases c with ⟨mk, sp, en, rp⟩
  cases mk with
  | none => exact absurd h (by simp [configValid])
  | some m =>
    cases sp with
    | none => exact absurd h (by simp [configValid])
    | some s =>
      have hm : m ≠ [] := by
        intro hx
        exact absurd h (by simp [configValid, hx])
      have hsx : s ≠ [] := by
        intro hx
        exact absurd h (by simp [configValid, hx])
      exact ⟨m, s, rfl, rfl, hm, hsx,
        validate_configuration_ok _ m s rfl rfl hm hsx⟩

theorem append_sep_ne (m s t : Str) (hs : s ≠ []) : m ++ (s ++ t) ≠ m := by
  intro h
  have hl := congrArg List.length h
  rw [List.length_append, List.length_append] at hl
  have hz : s.length = 0 := by omega
  exact hs (List.length_eq_zero.mp hz)

theorem isMarkerPrefixed_nil (m s : Str) (hm : m ≠ []) :
    isMarkerPrefixed m s [] = false := by
  cases m with
  | nil => exact absurd rfl hm
  | cons a m' => rfl

/-! Claim theorems. -/

/-- C8: whenever the marker or the backup separator is unset or empty, every
invocation of mark, unmark, isMarked or stats fails with the configuration
ValueError; the operations raise before touching the store, so no translation
record is created, modified or deleted (an error result carries no store). -/
theorem C8_config_error_before_state_change (c : Config) (st : Store) (k : Key)
    (u : Option Nat) (d : Str) (ids : List Nat) (loc : Nat)
    (h : configValid c = false) :
    mark_segment_do_not_translate c st k u = .error .configError
    ∧ unmark_segment_do_not_translate c st k = .error .configError
    ∧ is_do_not_translate c d = .error .configError
    ∧ get_source_fallback_stats c st ids loc = .error .configError := by
  have hv := validate_configuration_error c h
  refine ⟨?_, ?_, ?_, ?_⟩ <;>
    simp [mark_segment_do_not_translate, unmark_segment_do_not_translate,
      is_do_not_translate, get_source_fallback_stats, hv]

/-- C8 witness: the invalid configuration with an unset marker makes all four
operations fail on a concrete store. -/
theorem C8_config_error_witness :
    mark_segment_do_not_translate badConfig [rowBonjour] k0 none = .error .configError
    ∧ unmark_segment_do_not_translate badConfig [rowBonjour] k0 = .error .configError
    ∧ is_do_not_translate badConfig "Bonjour".toList = .error .configError
    ∧ get_source_fallback_stats badConfig [rowBonjour] [1] 1 = .error .configError :=
  C8_config_error_before_state_change badConfig [rowBonjour] k0 none
    "Bonjour".toList [1] 1 rfl

/-- C9: with a valid configuration the stats result satisfies
total = do_not_translate + manually_translated, where do_not_translate counts
exactly the job's records matching the marker test (data equal to the marker
or starting with marker + separator) and manually_translated counts exactly
the remaining records — every counted record falls in exactly one class. -/
theorem C9_stats_partition (c : Config) (st : Store) (ids : List Nat) (loc : Nat)
    (h : configValid c = true) :
    ∃ m s stats, c.marker = some m ∧ c.backupSeparator = some s
      ∧ get_source_fallback_stats c st ids loc = .ok stats
      ∧ stats.total = stats.do_not_translate + stats.manually_translated
      ∧ stats.do_not_translate
          = ((st.filter (fun r => decide (r.key.locale = loc) && ids.contains r.key.stringId)).filter
              (fun r => isMarkerPrefixed m s r.data)).length
      ∧ stats.manually_translated
          = ((st.filter (fun r => decide (r.key.locale = loc) && ids.contains r.key.stringId)).filter
              (fun r => !isMarkerPrefixed m s r.data)).length := by
  obtain ⟨m, s, hm, hs, hm0, hs0, hv⟩ := configValid_elim c h
  have heq : get_source_fallback_stats c st ids loc = .ok
      { total := (st.filter (fun r => decide (r.key.locale = loc) && ids.contains r.key.stringId)).length,
        do_not_translate :=
          ((st.filter (fun r => decide (r.key.locale = loc) && ids.contains r.key.stringId)).filter
            (fun r => isMarkerPrefixed m s r.data)).length,
        manually_translated :=
          ((st.filter (fun r => decide (r.key.locale = loc) && ids.contains r.key.stringId)).filter
            (fun r => !isMarkerPrefixed m s r.data)).length } := by
    simp only [get_source_fallback_stats, hv]
  exact ⟨m, s, _, hm, hs, heq,
    (length_filter_partition (fun r => isMarkerPrefixed m s r.data)
      (st.filter (fun r => decide (r.key.locale = loc) && ids.contains r.key.stringId))).symm,
    rfl, rfl⟩

/-- C9 witness: the partition identity on a concrete store holding one marked
and one manually translated row. -/
theorem C9_stats_partition_witness :
    ∃ m s stats, defaultConfig.marker = some m ∧ defaultConfig.backupSeparator = some s
      ∧ get_source_fallback_stats defaultConfig [rowMarkedBackup, rowBonjour] [1] 1 = .ok stats
      ∧ stats.total = stats.do_not_translate + stats.manually_translated
      ∧ stats.do_not_translate
          = ((([rowMarkedBackup, rowBonjour] : Store).filter
               (fun r => decide (r.key.locale = 1) && ([1] : List Nat).contains r.key.stringId)).filter
              (fun r => isMarkerPrefixed m s r.data)).length
      ∧ stats.manually_translated
          = ((([rowMarkedBackup, rowBonjour] : Store).filter
               (fun r => decide (r.key.locale = 1) && ([1] : List Nat).contains r.key.stringId)).filter
              (fun r => !isMarkerPrefixed m s r.data)).length :=
  C9_stats_partition defaultConfig [rowMarkedBackup, rowBonjour] [1] 1 (by decide)

/-- C4: with a valid configuration and no prior translation record for the
key, mark creates a record whose data is exactly the bare marker, a query then
finds that record, and a subsequent unmark deletes it (reporting one affected
row) so that a following query finds no record. -/
theorem C4_fresh_mark_and_delete_on_unmark (c : Config) (st : Store) (k : Key)
    (u : Option Nat) (m s : Str)
    (hm : c.marker = some m) (hs : c.backupSeparator = some s)
    (hm0 : m ≠ []) (hs0 : s ≠ [])
    (h0 : getRow st k = none) :
    ∃ st' row, mark_segment_do_not_translate c st k u = .ok (st', row)
      ∧ row.data = m
      ∧ getRow st' k = some row
      ∧ unmark_segment_do_not_translate c st' k = .ok (st, 1)
      ∧ getRow st k = none := by
  have hv := validate_configuration_ok c m s hm hs hm0 hs0
  have hkeys : ∀ r ∈ st, ¬ (r.key = k) := by
    intro r hr
    have := List.find?_eq_none.mp h0 r hr
    simpa using this
  have hmark : mark_segment_do_not_translate c st k u
      = .ok (st ++ [(⟨k, m, TRANSLATION_TYPE_MANUAL, u⟩ : Row)],
             (⟨k, m, TRANSLATION_TYPE_MANUAL, u⟩ : Row)) := by
    simp only [mark_segment_do_not_translate, hv, h0, update_or_create]
  refine ⟨_, _, hmark, rfl, ?_, ?_, h0⟩
  · rw [getRow, find?_append_first_none _ st _ h0]
    rw [List.find?_cons_of_pos _ (by simp)]
  · have hstnone : st.find? (fun r => decide (r.key = k) && decide (r.data = m)) = none :=
      List.find?_eq_none.mpr (fun r hr => by simp [hkeys r hr])
    have hfind1 : (st ++ [(⟨k, m, TRANSLATION_TYPE_MANUAL, u⟩ : Row)]).find?
          (fun r => decide (r.key = k) && decide (r.data = m))
        = some ⟨k, m, TRANSLATION_TYPE_MANUAL, u⟩ := by
      rw [find?_append_first_none _ _ _ hstnone]
      rw [List.find?_cons_of_pos _ (by simp)]
    have hdel : deleteKey (st ++ [(⟨k, m, TRANSLATION_TYPE_MANUAL, u⟩ : Row)]) k = st := by
      rw [deleteKey, List.filter_append]
      rw [filter_all_keep _ st (fun r hr => by simp [hkeys r hr])]
      simp
    simp only [unmark_segment_do_not_translate, hv, hfind1, hdel]

/-- C4 witness: marking and unmarking a fresh key on the empty store. -/
theorem C4_fresh_mark_witness :
    ∃ st' row, mark_segment_do_not_translate defaultConfig [] k0 none = .ok (st', row)
      ∧ row.data = DO_NOT_TRANSLATE_MARKER
      ∧ getRow st' k0 = some row
      ∧ unmark_segment_do_not_translate defaultConfig st' k0 = .ok ([], 1)
      ∧ getRow [] k0 = none :=
  C4_fresh_mark_and_delete_on_unmark defaultConfig [] k0 none
    DO_NOT_TRANSLATE_MARKER BACKUP_SEPARATOR rfl rfl (by decide) (by decide) rfl

/-- C3 as stated is false: with the non-empty marker a| and non-empty
separator |, the encoded value a||b is classified as marked but decodes to
|b rather than to the backup b — the code splits at the first occurrence of
the separator in the whole string, which here falls inside the marker, not
after it. -/
theorem C3_codec_counterexample :
    (['a', '|'] : Str) ≠ [] ∧ (['|'] : Str) ≠ []
    ∧ isMarkerPrefixed ['a', '|'] ['|']
        (encode_marker_with_backup ['a', '|'] ['|'] ['b']) = true
    ∧ decode_backup ['|'] (encode_marker_with_backup ['a', '|'] ['|'] ['b']) ≠ some ['b'] := by
  refine ⟨by decide, by decide, by decide, by decide⟩

/-- C3 amended: for every non-empty marker and separator, encoding yields
marker + separator + backup and that value is classified as marked; decoding
splits at the first occurrence of the separator in the whole encoded string,
so it returns exactly the backup (even a backup containing the separator)
provided the separator's first occurrence in marker + separator is the one
right after the marker. -/
theorem C3_codec_amended (m s b : Str) (hm : m ≠ []) (hs : s ≠ [])
    (hclean : ∀ i, i < m.length → strStartsWith ((m ++ s).drop i) s = false) :
    encode_marker_with_backup m s b = m ++ s ++ b
    ∧ isMarkerPrefixed m s (encode_marker_with_backup m s b) = true
    ∧ decode_backup s (encode_marker_with_backup m s b) = some b := by
  refine ⟨rfl, ?_, ?_⟩
  · have h1 : strStartsWith ((m ++ s) ++ b) (m ++ s) = true := strStartsWith_of_append _ _
    simp only [isMarkerPrefixed, encode_marker_with_backup]
    rw [h1]
    simp
  · rw [decode_backup, encode_marker_with_backup, List.append_assoc,
      splitFirst_clean s m b hs hclean]
    rfl

/-- C3 witness: the configured marker and separator, with a backup that
itself contains the separator, encode and decode losslessly. -/
theorem C3_codec_amended_witness :
    encode_marker_with_backup DO_NOT_TRANSLATE_MARKER BACKUP_SEPARATOR "x|backup|y".toList
      = DO_NOT_TRANSLATE_MARKER ++ BACKUP_SEPARATOR ++ "x|backup|y".toList
    ∧ isMarkerPrefixed DO_NOT_TRANSLATE_MARKER BACKUP_SEPARATOR
        (encode_marker_with_backup DO_NOT_TRANSLATE_MARKER BACKUP_SEPARATOR "x|backup|y".toList)
        = true
    ∧ decode_backup BACKUP_SEPARATOR
        (encode_marker_with_backup DO_NOT_TRANSLATE_MARKER BACKUP_SEPARATOR "x|backup|y".toList)
        = some "x|backup|y".toList :=
  C3_codec_amended DO_NOT_TRANSLATE_MARKER BACKUP_SEPARATOR "x|backup|y".toList
    (by decide) (by decide) (by decide)

/-- C5 as stated is false: when marking a segment fails (here: the first one,
through an invalid configuration), bulk marking does not report the number of
segments successfully marked before the failure — it propagates the error and
no count is returned. -/
theorem C5_bulk_mark_counterexample :
    bulk_mark_segments badConfig [] [k0] none = ([], .error .configError) := rfl

/-- C5 amended: bulkMark applies mark to each listed segment in order; with a
valid configuration every mark succeeds and the count of marked segments is
returned; when a mark fails, no further segments are processed and the error
propagates to the caller with the store left as the failing mark left it (the
count is only reported when every segment succeeds). -/
theorem C5_bulk_mark_amended (c : Config) (st : Store) (keys : List Key)
    (u : Option Nat) :
    (configValid c = true →
      ∃ st', bulk_mark_segments c st keys u = (st', .ok keys.length))
    ∧ (configValid c = false → ∀ k ks, keys = k :: ks →
      bulk_mark_segments c st keys u = (st, .error .configError)) := by
  constructor
  · intro h
    obtain ⟨m, s, hm, hs, hm0, hs0, hv⟩ := configValid_elim c h
    induction keys generalizing st with
    | nil => exact ⟨st, rfl⟩
    | cons k ks ih =>
      have hmark : ∃ p, mark_segment_do_not_translate c st k u = .ok p := by
        simp only [mark_segment_do_not_translate, hv]
        exact ⟨_, rfl⟩
      obtain ⟨⟨st1, r1⟩, hmk⟩ := hmark
      obtain ⟨st', hrec⟩ := ih st1
      refine ⟨st', ?_⟩
      simp only [bulk_mark_segments, hmk, hrec, List.length_cons]
  · intro h k ks hkeys
    subst hkeys
    have hv := validate_configuration_error c h
    simp only [bulk_mark_segments, mark_segment_do_not_translate, hv]

/-- C5 witness: a successful bulk mark reports the full count, and an invalid
configuration aborts the batch at its first item with the store unchanged. -/
theorem C5_bulk_mark_amended_witness :
    (∃ st', bulk_mark_segments defaultConfig [] [k0] none = (st', .ok 1))
    ∧ bulk_mark_segments badConfig [rowBonjour] [k0, k0] none
        = ([rowBonjour], .error .configError) := by
  constructor
  · exact (C5_bulk_mark_amended defaultConfig [] [k0] none).1 (by decide)
  · exact (C5_bulk_mark_amended badConfig [rowBonjour] [k0, k0] none).2 rfl k0 [k0] rfl

/-- C6 as stated is false: the POST parameter True is not exactly the string
true or the string false, yet the endpoint lowercases it, accepts it, returns
success 200 and performs the mark (the empty store gains a record) instead of
returning a 400 with no state change. -/
theorem C6_toggle_counterexample :
    ("True".toList ≠ "true".toList) ∧ ("True".toList ≠ "false".toList)
    ∧ (mark_segment_do_not_translate_view defaultConfig [] true true true true k0
        "Hello".toList none (some "True".toList)).2.status = 200
    ∧ (mark_segment_do_not_translate_view defaultConfig [] true true true true k0
        "Hello".toList none (some "True".toList)).1 ≠ [] := by
  decide

/-- C6 amended: the toggle validation is case-insensitive — the parameter is
lowercased first, and whenever the lowercased value is neither true nor false
the endpoint returns a 400 ValidationError response and performs no mark or
unmark state change. -/
theorem C6_toggle_validation_amended (c : Config) (st : Store) (hasPerm : Bool)
    (k : Key) (src : Str) (u : Option Nat) (param : Option Str)
    (hperm : check_permission c hasPerm = true)
    (hbad : (decide (pyLower (param.getD []) = "true".toList)
             || decide (pyLower (param.getD []) = "false".toList)) = false) :
    mark_segment_do_not_translate_view c st hasPerm true true true k src u param
      = (st, errorResponse 400) := by
  simp only [mark_segment_do_not_translate_view, hperm, hbad]
  simp

/-- C6 witness: the parameter yes is rejected with a 400 and no state change
on a concrete store. -/
theorem C6_toggle_validation_amended_witness :
    mark_segment_do_not_translate_view defaultConfig [rowBonjour] true true true true k0
      "Hello".toList none (some "yes".toList) = ([rowBonjour], errorResponse 400) :=
  C6_toggle_validation_amended defaultConfig [rowBonjour] true k0 "Hello".toList none
    (some "yes".toList) rfl (by decide)

/-- C7 (spec-modelled resolver): with the feature flag enabled and a valid
configuration, a segment whose stored record is marker-prefixed resolves to
the segment's own source text; and for any record state, as long as the
segment's source text is not itself marker-prefixed, the resolved value is
never marker-prefixed — in particular it is neither the literal marker token
nor any encoded marker + separator + backup value. -/
theorem C7_resolve_substitutes_source (c : Config) (st : Store) (loc : Nat)
    (fb : Bool) (seg : Segment) (m s : Str)
    (hen : c.enabled = true)
    (hm : c.marker = some m) (hs : c.backupSeparator = some s) (hm0 : m ≠ []) :
    (∀ r, getRow st { stringId := seg.stringId, locale := loc, context := seg.context }
          = some r →
        isMarkerPrefixed m s r.data = true →
        resolve_segment c st loc fb seg = seg.sourceText)
    ∧ (isMarkerPrefixed m s seg.sourceText = false →
        isMarkerPrefixed m s (resolve_segment c st loc fb seg) = false) := by
  constructor
  · intro r hrow hmarked
    simp only [resolve_segment, hen, if_true, hrow, hm, hs, hmarked]
  · intro hsrc
    simp only [resolve_segment, hen, if_true, hm, hs]
    cases hrow : getRow st { stringId := seg.stringId, locale := loc, context := seg.context } with
    | none => cases fb <;> simp [hsrc, isMarkerPrefixed_nil m s hm0]
    | some r =>
      cases hmk : isMarkerPrefixed m s r.data with
      | true => simp [hmk, hsrc]
      | false => simp [hmk]

/-- C7 witness: a bare-marker record resolves to the segment's source text,
and the resolved value is not marker-prefixed. -/
theorem C7_resolve_substitutes_source_witness :
    resolve_segment defaultConfig [rowMarked] 1 true seg0 = seg0.sourceText
    ∧ isMarkerPrefixed DO_NOT_TRANSLATE_MARKER BACKUP_SEPARATOR
        (resolve_segment defaultConfig [rowMarked] 1 true seg0) = false := by
  have h := C7_resolve_substitutes_source defaultConfig [rowMarked] 1 true seg0
    DO_NOT_TRANSLATE_MARKER BACKUP_SEPARATOR rfl rfl rfl (by decide)
  exact ⟨h.1 rowMarked (by decide) (by decide), h.2 (by decide)⟩

/-- C10: through the status endpoint, a marker-prefixed stored record is
reported with do_not_translate true and translated_text null, and whatever
the record state, any translated_text the endpoint does return is never
marker-prefixed — marker-encoded data is never surfaced. -/
theorem C10_status_no_marker_leak (c : Config) (st : Store) (hasPerm : Bool)
    (sid loc : Nat) (src : Str) (m s : Str)
    (hperm : check_permission c hasPerm = true)
    (hm : c.marker = some m) (hs : c.backupSeparator = some s)
    (hm0 : m ≠ []) (hs0 : s ≠ []) :
    (∀ r, st.filter (fun r =>
          decide (r.key.stringId = sid) && decide (r.key.locale = loc)) = [r] →
        isMarkerPrefixed m s r.data = true →
        (get_segment_status c st hasPerm true true true sid loc src).do_not_translate
            = some true
        ∧ (get_segment_status c st hasPerm true true true sid loc src).translated_text
            = none)
    ∧ (∀ t, (get_segment_status c st hasPerm true true true sid loc src).translated_text
          = some t →
        isMarkerPrefixed m s t = false) := by
  have hv := validate_configuration_ok c m s hm hs hm0 hs0
  constructor
  · intro r hfil hmk
    simp only [get_segment_status, hperm, hfil, is_do_not_translate, hv, hmk]
    simp
  · intro t ht
    simp only [get_segment_status, hperm] at ht
    simp only [Bool.not_true, Bool.false_eq_true, if_false] at ht
    cases hfil : st.filter (fun r =>
        decide (r.key.stringId = sid) && decide (r.key.locale = loc)) with
    | nil =>
      rw [hfil] at ht
      simp [statusError] at ht
    | cons x xs =>
      cases xs with
      | nil =>
        rw [hfil] at ht
        simp only [is_do_not_translate, hv] at ht
        cases hmk : isMarkerPrefixed m s x.data with
        | true => rw [hmk] at ht; simp at ht
        | false =>
          rw [hmk] at ht
          simp at ht
          rw [← ht]
          exact hmk
      | cons y ys =>
        rw [hfil] at ht
        simp [statusError] at ht

/-- C10 witness: a record holding the marker with an encoded backup is
reported as do_not_translate with a null translated_text. -/
theorem C10_status_no_marker_leak_witness :
    (get_segment_status defaultConfig [rowMarkedBackup] true true true true 1 1
        "Hello".toList).do_not_translate = some true
    ∧ (get_segment_status defaultConfig [rowMarkedBackup] true true true true 1 1
        "Hello".toList).translated_text = none := by
  have h := C10_status_no_marker_leak defaultConfig [rowMarkedBackup] true 1 1
    "Hello".toList DO_NOT_TRANSLATE_MARKER BACKUP_SEPARATOR rfl rfl rfl
    (by decide) (by decide)
  exact h.1 rowMarkedBackup (by decide) (by decide)

/-- C1 fails on the code: evaluating mark on a record that already carries an
encoded backup resets its data to the bare marker, destroying the backup, so
calling mark twice does not yield the same encoded state as calling it once.
The first mark of a manual translation Bonjour encodes
marker + separator + Bonjour; the second mark wipes that down to the bare
marker. -/
theorem C1_remark_destroys_backup :
    ∃ st1 r1 st2 r2,
      mark_segment_do_not_translate defaultConfig [rowBonjour] k0 none = .ok (st1, r1)
      ∧ (getRow st1 k0).map Row.data
          = some (encode_marker_with_backup DO_NOT_TRANSLATE_MARKER BACKUP_SEPARATOR
              "Bonjour".toList)
      ∧ mark_segment_do_not_translate defaultConfig st1 k0 none = .ok (st2, r2)
      ∧ (getRow st2 k0).map Row.data = some DO_NOT_TRANSLATE_MARKER
      ∧ (getRow st2 k0).map Row.data ≠ (getRow st1 k0).map Row.data := by
  refine ⟨_, _, _, _, rfl, ?_, rfl, ?_, ?_⟩ <;> decide

/-- C2 fails for the empty translation: with the default configuration and an
existing manual translation that is the empty string (not marker-prefixed),
mark encodes an empty backup and unmark then deletes the record (Python
truthiness treats the empty backup as no backup) instead of restoring the
record's data to the empty string — after the round trip no record exists. -/
theorem C2_round_trip_counterexample :
    rowEmpty.data = []
    ∧ isMarkerPrefixed DO_NOT_TRANSLATE_MARKER BACKUP_SEPARATOR rowEmpty.data = false
    ∧ mark_then_unmark defaultConfig [rowEmpty] k0 none = .ok []
    ∧ getRow [] k0 = none := by
  refine ⟨rfl, by decide, rfl, rfl⟩

/-- C2 amended: with a valid configuration whose separator first occurs in
marker + separator immediately after the marker, marking a record that holds
an existing manual translation T (not marker-prefixed) and then unmarking
restores the record's data to exactly T, provided T is non-empty — when T is
the empty string the record is deleted instead, as the counterexample shows. -/
theorem C2_round_trip_amended (c : Config) (st : Store) (k : Key) (u : Option Nat)
    (m s T : Str) (r : Row)
    (hm : c.marker = some m) (hs : c.backupSeparator = some s)
    (hm0 : m ≠ []) (hs0 : s ≠ [])
    (hclean : ∀ i, i < m.length → strStartsWith ((m ++ s).drop i) s = false)
    (hr : getRow st k = some r) (hdata : r.data = T)
    (hT : isMarkerPrefixed m s T = false) (hT0 : T ≠ []) :
    ∃ st'', mark_then_unmark c st k u = .ok st''
      ∧ (getRow st'' k).map Row.data = some T := by
  subst hdata
  have hv := validate_configuration_ok c m s hm hs hm0 hs0
  simp only [isMarkerPrefixed, Bool.or_eq_false_iff, decide_eq_false_iff_not] at hT
  obtain ⟨hTm, hTsw⟩ := hT
  have hrk : r.key = k := by
    have := List.find?_some hr
    simpa using this
  have hcond : (!decide (r.data = m) && !strStartsWith r.data (m ++ s)) = true := by
    simp [hTm, hTsw]
  have hmark : mark_segment_do_not_translate c st k u
      = .ok (updateRows st k (fun r' => (⟨r'.key, encode_marker_with_backup m s r.data, TRANSLATION_TYPE_MANUAL, u⟩ : Row)),
        (⟨k, encode_marker_with_backup m s r.data, TRANSLATION_TYPE_MANUAL, u⟩ : Row)) := by
    simp only [mark_segment_do_not_translate, hv, hr, hcond, update_or_create, if_true]
  have hne : ¬ (encode_marker_with_backup m s r.data = m) := by
    rw [encode_marker_with_backup, List.append_assoc]
    exact append_sep_ne m s r.data hs0
  have hfind1 : (updateRows st k (fun r' => (⟨r'.key, encode_marker_with_backup m s r.data, TRANSLATION_TYPE_MANUAL, u⟩ : Row))).find?
          (fun r' => decide (r'.key = k) && decide (r'.data = m)) = none := by
    rw [find?_data_updateRows st k (fun r' => (⟨r'.key, encode_marker_with_backup m s r.data, TRANSLATION_TYPE_MANUAL, u⟩ : Row)) (encode_marker_with_backup m s r.data)
      (fun _ => rfl) (fun _ => rfl) (fun d => decide (d = m))]
    simp [hne]
  have hsw2 : strStartsWith (encode_marker_with_backup m s r.data) (m ++ s) = true := by
    rw [encode_marker_with_backup]
    exact strStartsWith_of_append _ _
  have hfind2 : (updateRows st k (fun r' => (⟨r'.key, encode_marker_with_backup m s r.data, TRANSLATION_TYPE_MANUAL, u⟩ : Row))).find?
          (fun r' => decide (r'.key = k) && strStartsWith r'.data (m ++ s))
        = some (⟨k, encode_marker_with_backup m s r.data, TRANSLATION_TYPE_MANUAL, u⟩ : Row) := by
    rw [find?_data_updateRows st k (fun r' => (⟨r'.key, encode_marker_with_backup m s r.data, TRANSLATION_TYPE_MANUAL, u⟩ : Row)) (encode_marker_with_backup m s r.data)
      (fun _ => rfl) (fun _ => rfl) (fun d => strStartsWith d (m ++ s))]
    rw [if_pos hsw2]
    have hbase : st.find? (fun r' => decide (r'.key = k)) = some r := hr
    rw [hbase]
    simp [hrk]
  have hdec : decode_backup s (encode_marker_with_backup m s r.data) = some r.data := by
    rw [decode_backup, encode_marker_with_backup, List.append_assoc,
      splitFirst_clean s m r.data hs0 hclean]
    rfl
  have hTE : (r.data).isEmpty = false := by
    cases hE : (r.data).isEmpty with
    | true => exact absurd (by simpa using hE) hT0
    | false => rfl
  have hunmark : unmark_segment_do_not_translate c (updateRows st k (fun r' => (⟨r'.key, encode_marker_with_backup m s r.data, TRANSLATION_TYPE_MANUAL, u⟩ : Row))) k
      = .ok (saveData (updateRows st k (fun r' => (⟨r'.key, encode_marker_with_backup m s r.data, TRANSLATION_TYPE_MANUAL, u⟩ : Row))) k r.data, 1) := by
    simp only [unmark_segment_do_not_translate, hv, hfind1, hfind2, hdec, hTE]
    simp
  refine ⟨saveData (updateRows st k (fun r' => (⟨r'.key, encode_marker_with_backup m s r.data, TRANSLATION_TYPE_MANUAL, u⟩ : Row))) k r.data, ?_, ?_⟩
  · simp only [mark_then_unmark, hmark, hunmark]
  · rw [saveData,
      getRow_updateRows (updateRows st k (fun r' => (⟨r'.key, encode_marker_with_backup m s r.data, TRANSLATION_TYPE_MANUAL, u⟩ : Row))) k (fun r2 => ({ r2 with data := r.data } : Row)) (fun _ => rfl),
      getRow_updateRows st k (fun r' => (⟨r'.key, encode_marker_with_backup m s r.data, TRANSLATION_TYPE_MANUAL, u⟩ : Row)) (fun _ => rfl), hr]
    simp [hrk]

/-- C2 witness: the Bonjour manual translation survives a mark and unmark
round trip under the default configuration. -/
theorem C2_round_trip_amended_witness :
    ∃ st'', mark_then_unmark defaultConfig [rowBonjour] k0 none = .ok st''
      ∧ (getRow st'' k0).map Row.data = some "Bonjour".toList :=
  C2_round_trip_amended defaultConfig [rowBonjour] k0 none
    DO_NOT_TRANSLATE_MARKER BACKUP_SEPARATOR "Bonjour".toList rowBonjour
    rfl rfl (by decide) (by decide) (by decide) rfl rfl (by decide) (by decide)

end IntentionalBlanks
